import Mathlib

/-!
Shallow embedding of the real-time collaboration backend (nextus) core:
huddle signaling service and controller, message relay service, presence
handler, typing-indicator cleanup and the WebSocket disconnect handler.
Each definition mirrors one JavaScript function of the repository; the
source file and function are named in its doc comment.  Asynchronous
Firestore/Supabase accesses are modelled as explicit state passing over
finite maps; Socket.IO room emissions are collected in an ordered list of
`Event`s; a JavaScript `throw { statusCode, message }` is an `Except.error`
carrying the same fields, and mutations performed before a throw stay
visible in the returned state, exactly as in the source.
-/

namespace Nextus

/-- The error objects thrown by the services: `{ statusCode, message }`. -/
structure Err where
  statusCode : Nat
  message : String
deriving DecidableEq, Repr

/-- Lookup in an association list keyed by strings (a JS `Map.get`, or a
Firestore document fetch by id). -/
def mget {α : Type} : List (String × α) → String → Option α
  | [], _ => none
  | (k', v) :: rest, k => if k' = k then some v else mget rest k

/-- `Map.set` / Firestore `doc(k).set`: replace the value at an existing key
in place, otherwise append the new entry (JS maps keep insertion order). -/
def mset {α : Type} : List (String × α) → String → α → List (String × α)
  | [], k, v => [(k, v)]
  | (k', v') :: rest, k, v =>
    if k' = k then (k, v) :: rest else (k', v') :: mset rest k v

/-- `Map.delete`: drop every entry stored under the key. -/
def mdel {α : Type} (m : List (String × α)) (k : String) : List (String × α) :=
  m.filter (fun p => !(p.1 == k))

/-! ## Huddle data model (src/services/huddle.service.js) -/

/-- The huddle media type: `'audio'` or `'video'`. -/
inductive MediaType where
  | audio
  | video
deriving DecidableEq, Repr

/-- The huddle status: `'active'` or `'ended'`. -/
inductive HuddleStatus where
  | active
  | ended
deriving DecidableEq, Repr

/-- One member of a huddle, as built by `createHuddle` / `joinHuddle`. -/
structure Participant where
  userId : String
  joinedAt : Nat
  isMuted : Bool
  isVideoOff : Bool
  isScreenSharing : Bool
deriving DecidableEq, Repr

/-- A huddle document, as built by `createHuddle`. -/
structure Huddle where
  id : String
  channelId : String
  workspaceId : String
  creatorId : String
  type : MediaType
  status : HuddleStatus
  participants : List Participant
  createdAt : Nat
  endedAt : Option Nat
deriving DecidableEq, Repr

/-! ## Message data model (src/services/message.service.js) -/

/-- One reaction entry `{ emoji, userIds, count }`.  `count` is a JS number
mutated by `++`/`--`, so it is modelled as an `Int`. -/
structure Reaction where
  emoji : String
  userIds : List String
  count : Int
deriving DecidableEq, Repr

/-- The fields of a stored chat message that the modelled operations read or
write (presentation-only fields such as `userName`, `fileIds` or `mentions`
are never touched by edit/delete/reactions and are omitted). -/
structure Message where
  id : String
  channelId : String
  userId : String
  content : String
  reactions : List Reaction
  isEdited : Bool
  isDeleted : Bool
  updatedAt : Nat
deriving DecidableEq, Repr

/-- A typing-indicator entry `{ userId, userName, timestamp }` stored in the
`typing` Firestore collection (src/websocket/handlers/typing.handler.js). -/
structure TypingEntry where
  userId : String
  userName : String
  timestamp : Nat
deriving DecidableEq, Repr

/-- The presence document stored per user in the `presence` collection
(src/websocket/handlers/presence.handler.js).  The raw code keeps the status
as a plain string (`'online'`, `'away'`, `'offline'`, ...). -/
structure PresenceRecord where
  userId : String
  workspaceId : String
  status : String
  lastSeen : Nat
  currentChannelId : Option String
deriving DecidableEq, Repr

/-- A Socket.IO room emission `io.to(room).emit(name, payload)`.  Only the
room-wide broadcasts are collected; sender-scoped acknowledgements
(`socket.emit`) are not modelled. -/
inductive Event where
  | huddleStarted (room : String) (h : Huddle)
  | huddleParticipantJoined (room huddleId : String) (p : Participant)
  | huddleParticipantLeft (room huddleId userId : String)
  | huddleEnded (room huddleId : String)
  | presenceChanged (room userId status : String)
  | messageUpdated (room : String) (m : Message)
  | messageDeleted (room messageId : String)
  | reactionAdded (room messageId emoji userId : String)
  | reactionRemoved (room messageId emoji userId : String)
deriving DecidableEq, Repr

/-! ## Huddle service state -/

/-- State of the huddle service: the in-memory `activeHuddles` map and the
Firestore `huddles` collection. -/
structure HuddleState where
  activeHuddles : List (String × Huddle)
  fsHuddles : List (String × Huddle)
deriving DecidableEq, Repr

/-- Firestore `update({ participants })` on a huddle document: merge the new
participants into the document if it exists (the real call would reject an
absent document; no modelled flow updates an absent one). -/
def fsUpdateParticipants (m : List (String × Huddle)) (k : String)
    (ps : List Participant) : List (String × Huddle) :=
  m.map (fun p => if p.1 = k then (p.1, { p.2 with participants := ps }) else p)

/-- Firestore `update({ status: 'ended', endedAt })` on a huddle document. -/
def fsUpdateEnded (m : List (String × Huddle)) (k : String) (now : Nat) :
    List (String × Huddle) :=
  m.map (fun p =>
    if p.1 = k then
      (p.1, { p.2 with status := HuddleStatus.ended, endedAt := some now })
    else p)

/-- The predicate of `getChannelHuddle`'s scan and Firestore query:
`huddle.channelId === channelId && huddle.status === 'active'`. -/
def isActiveFor (channelId : String) (h : Huddle) : Bool :=
  (h.channelId == channelId) && (h.status == HuddleStatus.active)

/-- Number of huddle documents for a channel whose status is active. -/
def countActive (m : List (String × Huddle)) (channelId : String) : Nat :=
  (m.filter (fun p => isActiveFor channelId p.2)).length

/-- `HuddleService.getChannelHuddle` (huddle.service.js, lines 225-247): scan
the in-memory map in insertion order for an active huddle of the channel;
otherwise run the Firestore query (`where channelId == c`, `where status ==
'active'`, `limit 1`) and cache a hit in memory under its document id. -/
def getChannelHuddle (st : HuddleState) (channelId : String) :
    HuddleState × Option Huddle :=
  match st.activeHuddles.find? (fun p => isActiveFor channelId p.2) with
  | some kv => (st, some kv.2)
  | none =>
    match st.fsHuddles.find? (fun p => isActiveFor channelId p.2) with
    | none => (st, none)
    | some kv =>
      let h := { kv.2 with id := kv.1 }
      ({ st with activeHuddles := mset st.activeHuddles kv.1 h }, some h)

/-- `HuddleService.createHuddle` (huddle.service.js, lines 19-57): build the
huddle with the creator as sole participant, store it in Firestore and in
memory, and emit `huddle:started` to `channel:{id}`.  The generated
`uuidv4()` is passed in as `freshId`. -/
def createHuddle (st : HuddleState) (channelId workspaceId creatorId : String)
    (type : MediaType) (freshId : String) (now : Nat) :
    HuddleState × List Event × Huddle :=
  let h : Huddle :=
    { id := freshId, channelId := channelId, workspaceId := workspaceId,
      creatorId := creatorId, type := type, status := HuddleStatus.active,
      participants := [{ userId := creatorId, joinedAt := now, isMuted := false,
                         isVideoOff := type == MediaType.audio,
                         isScreenSharing := false }],
      createdAt := now, endedAt := none }
  ({ st with fsHuddles := mset st.fsHuddles freshId h,
             activeHuddles := mset st.activeHuddles freshId h },
   [Event.huddleStarted ("channel:" ++ channelId) h], h)

/-- HTTP response skeleton of the huddle controller: status code and success
flag. -/
structure HttpResponse where
  status : Nat
  ok : Bool
deriving DecidableEq, Repr

/-- `createHuddle` controller (src/controllers/huddle.controller.js, lines
8-46): after the required-field check (JS falsy test on the ids), consult
`getChannelHuddle`; if a huddle exists respond `400` with "There is already
an active huddle in this channel", otherwise create and respond `201`. -/
def createHuddleEndpoint (st : HuddleState) (channelId workspaceId userId : String)
    (type : MediaType) (freshId : String) (now : Nat) :
    HuddleState × List Event × HttpResponse :=
  if channelId = "" ∨ workspaceId = "" then (st, [], { status := 400, ok := false })
  else
    match getChannelHuddle st channelId with
    | (st1, some _) => (st1, [], { status := 400, ok := false })
    | (st1, none) =>
      let r := createHuddle st1 channelId workspaceId userId type freshId now
      (r.1, r.2.1, { status := 201, ok := true })

/-- `HuddleService.joinHuddle` (huddle.service.js, lines 65-113): look up the
huddle in memory, else fetch and cache the Firestore document (404 when
absent); reject non-active huddles with 400; an existing participant gets
the current huddle back unchanged; otherwise append the new participant,
persist, and emit `huddle:participant-joined` to `huddle:{id}`. -/
def joinHuddle (st : HuddleState) (huddleId userId : String) (now : Nat) :
    HuddleState × List Event × Except Err Huddle :=
  let fetched : Option (HuddleState × Huddle) :=
    match mget st.activeHuddles huddleId with
    | some h => some (st, h)
    | none =>
      match mget st.fsHuddles huddleId with
      | none => none
      | some h =>
        some ({ st with activeHuddles := mset st.activeHuddles huddleId h }, h)
  match fetched with
  | none => (st, [], Except.error { statusCode := 404, message := "Huddle not found" })
  | some (st1, h) =>
    if !(h.status == HuddleStatus.active) then
      (st1, [],
       Except.error { statusCode := 400, message := "Huddle is no longer active" })
    else if (h.participants.find? (fun p => p.userId == userId)).isSome then
      (st1, [], Except.ok h)
    else
      let p : Participant :=
        { userId := userId, joinedAt := now, isMuted := false,
          isVideoOff := h.type == MediaType.audio, isScreenSharing := false }
      let h' := { h with participants := h.participants ++ [p] }
      ({ st1 with activeHuddles := mset st1.activeHuddles huddleId h',
                  fsHuddles := fsUpdateParticipants st1.fsHuddles huddleId h'.participants },
       [Event.huddleParticipantJoined ("huddle:" ++ huddleId) huddleId p],
       Except.ok h')

/-- `HuddleService.endHuddle` (huddle.service.js, lines 158-185): read the
in-memory entry (possibly absent), delete it, mark the Firestore document
ended, emit `huddle:ended` to `channel:{id}` only when the in-memory entry
supplied a `channelId`, and always to `huddle:{id}`. -/
def endHuddle (st : HuddleState) (huddleId : String) (now : Nat) :
    HuddleState × List Event × Option Huddle :=
  let mem := mget st.activeHuddles huddleId
  let st' : HuddleState :=
    { st with activeHuddles := mdel st.activeHuddles huddleId,
              fsHuddles := fsUpdateEnded st.fsHuddles huddleId now }
  let chanEvs :=
    match mem with
    | some h => [Event.huddleEnded ("channel:" ++ h.channelId) huddleId]
    | none => []
  (st', chanEvs ++ [Event.huddleEnded ("huddle:" ++ huddleId) huddleId],
   mem.map (fun h => { h with status := HuddleStatus.ended, endedAt := some now }))

/-- `HuddleService.leaveHuddle` (huddle.service.js, lines 120-152): fetch the
huddle from memory, else from Firestore (returning silently when absent —
without caching); filter the user out of the participants (an in-memory
huddle object is mutated in place, so the map sees the filtered list); when
no participant is left delegate to `endHuddle`, otherwise persist and emit
`huddle:participant-left` to `huddle:{id}`. -/
def leaveHuddle (st : HuddleState) (huddleId userId : String) (now : Nat) :
    HuddleState × List Event × Option Huddle :=
  match mget st.activeHuddles huddleId with
  | some h =>
    let ps := h.participants.filter (fun p => !(p.userId == userId))
    let h' := { h with participants := ps }
    let st1 := { st with activeHuddles := mset st.activeHuddles huddleId h' }
    if ps.isEmpty then endHuddle st1 huddleId now
    else
      ({ st1 with fsHuddles := fsUpdateParticipants st1.fsHuddles huddleId ps },
       [Event.huddleParticipantLeft ("huddle:" ++ huddleId) huddleId userId],
       some h')
  | none =>
    match mget st.fsHuddles huddleId with
    | none => (st, [], none)
    | some h =>
      let ps := h.participants.filter (fun p => !(p.userId == userId))
      let h' := { h with participants := ps }
      if ps.isEmpty then endHuddle st huddleId now
      else
        ({ st with activeHuddles := mset st.activeHuddles huddleId h',
                   fsHuddles := fsUpdateParticipants st.fsHuddles huddleId ps },
         [Event.huddleParticipantLeft ("huddle:" ++ huddleId) huddleId userId],
         some h')

/-! ## Message relay (src/services/message.service.js) -/

/-- The Firestore `messages` collection, keyed by message id. -/
def MsgStore := String → Option Message

/-- Firestore `messagesCollection.doc(k).set/update` writing a whole modelled
message. -/
def msSet (st : MsgStore) (k : String) (m : Message) : MsgStore :=
  fun k' => if k' = k then some m else st k'

/-- `updateMessage` (message.service.js, lines 148-183): 404 when the message
is absent, 403 for a non-author; otherwise overwrite content, set `isEdited`,
persist, and emit `message:updated` to `channel:{id}`. -/
def updateMessage (st : MsgStore) (messageId content userId : String) (now : Nat) :
    MsgStore × List Event × Except Err Message :=
  match st messageId with
  | none => (st, [], Except.error { statusCode := 404, message := "Message not found" })
  | some m =>
    if !(m.userId == userId) then
      (st, [],
       Except.error { statusCode := 403, message := "You can only edit your own messages" })
    else
      let m' := { m with content := content, isEdited := true, updatedAt := now }
      (msSet st messageId m',
       [Event.messageUpdated ("channel:" ++ m.channelId) m'], Except.ok m')

/-- `deleteMessage` (message.service.js, lines 191-219): 404 when absent, 403
for a non-author; otherwise soft-delete (tombstone content, `isDeleted`),
persist, and emit `message:deleted` to `channel:{id}`. -/
def deleteMessage (st : MsgStore) (messageId userId : String) (now : Nat) :
    MsgStore × List Event × Except Err Bool :=
  match st messageId with
  | none => (st, [], Except.error { statusCode := 404, message := "Message not found" })
  | some m =>
    if !(m.userId == userId) then
      (st, [],
       Except.error { statusCode := 403, message := "You can only delete your own messages" })
    else
      let m' := { m with isDeleted := true,
                         content := "This message has been deleted", updatedAt := now }
      (msSet st messageId m',
       [Event.messageDeleted ("channel:" ++ m.channelId) messageId], Except.ok true)

/-- JS `indexOf` + `splice(i, 1)`: remove the first occurrence of a string. -/
def removeFirst : List String → String → List String
  | [], _ => []
  | x :: xs, u => if x = u then xs else x :: removeFirst xs u

/-- The reaction-list mutation of `addReaction` (message.service.js, lines
236-256): `findIndex` locates the first entry for the emoji; a duplicate
user yields 409; an existing entry gets the user pushed and `count++`;
otherwise a fresh `{ emoji, userIds: [userId], count: 1 }` is pushed. -/
def applyAddReaction : List Reaction → String → String → Except Err (List Reaction)
  | [], emoji, userId => Except.ok [{ emoji := emoji, userIds := [userId], count := 1 }]
  | r :: rest, emoji, userId =>
    if r.emoji = emoji then
      if userId ∈ r.userIds then
        Except.error { statusCode := 409, message := "You already reacted with this emoji" }
      else
        Except.ok ({ r with userIds := r.userIds ++ [userId], count := r.count + 1 } :: rest)
    else
      match applyAddReaction rest emoji userId with
      | Except.error e => Except.error e
      | Except.ok rest' => Except.ok (r :: rest')

/-- The reaction-list mutation of `removeReaction` (message.service.js, lines
290-311): 404 when the emoji has no entry or the user never reacted; else
splice the user out, `count--`, and drop the entry when the count reaches
zero. -/
def applyRemoveReaction : List Reaction → String → String → Except Err (List Reaction)
  | [], _, _ => Except.error { statusCode := 404, message := "Reaction not found" }
  | r :: rest, emoji, userId =>
    if r.emoji = emoji then
      if userId ∈ r.userIds then
        let ids := removeFirst r.userIds userId
        let c := r.count - 1
        if c = 0 then Except.ok rest
        else Except.ok ({ r with userIds := ids, count := c } :: rest)
      else
        Except.error { statusCode := 404, message := "You have not reacted with this emoji" }
    else
      match applyRemoveReaction rest emoji userId with
      | Except.error e => Except.error e
      | Except.ok rest' => Except.ok (r :: rest')

/-- `addReaction` (message.service.js, lines 228-273): fetch the message (404
when absent), apply the reaction-list mutation, persist only the `reactions`
field, and emit the `reaction:added` delta to `channel:{id}`. -/
def addReaction (st : MsgStore) (messageId emoji userId : String) :
    MsgStore × List Event × Except Err Message :=
  match st messageId with
  | none => (st, [], Except.error { statusCode := 404, message := "Message not found" })
  | some m =>
    match applyAddReaction m.reactions emoji userId with
    | Except.error e => (st, [], Except.error e)
    | Except.ok rs =>
      let m' := { m with reactions := rs }
      (msSet st messageId m',
       [Event.reactionAdded ("channel:" ++ m.channelId) messageId emoji userId],
       Except.ok m')

/-- `removeReaction` (message.service.js, lines 282-328): fetch the message
(404 when absent), apply the removal mutation, persist only `reactions`, and
emit the `reaction:removed` delta to `channel:{id}`. -/
def removeReaction (st : MsgStore) (messageId emoji userId : String) :
    MsgStore × List Event × Except Err Message :=
  match st messageId with
  | none => (st, [], Except.error { statusCode := 404, message := "Message not found" })
  | some m =>
    match applyRemoveReaction m.reactions emoji userId with
    | Except.error e => (st, [], Except.error e)
    | Except.ok rs =>
      let m' := { m with reactions := rs }
      (msSet st messageId m',
       [Event.reactionRemoved ("channel:" ++ m.channelId) messageId emoji userId],
       Except.ok m')

/-- The invariant the service maintains on stored reaction lists: the counter
mirrors the number of reacting users and empty entries are spliced away. -/
def wfReactions (rs : List Reaction) : Prop :=
  ∀ r ∈ rs, r.count = r.userIds.length ∧ r.userIds ≠ []

/-! ## Presence handler (src/websocket/handlers/presence.handler.js) -/

/-- The Firestore `presence` collection, one document per user id. -/
def PresenceStore := String → Option PresenceRecord

/-- `handlePresenceUpdate` (presence.handler.js, lines 12-50): build the
presence document (`status || 'online'`), merge it into the store, and emit
`presence:changed` to `workspace:{id}` — unconditionally, with no comparison
against the previously stored status. -/
def handlePresenceUpdate (st : PresenceStore) (userId workspaceId : String)
    (status? : Option String) (currentChannelId? : Option String) (now : Nat) :
    PresenceStore × List Event :=
  let status := status?.getD "online"
  let pr : PresenceRecord :=
    { userId := userId, workspaceId := workspaceId, status := status,
      lastSeen := now, currentChannelId := currentChannelId? }
  (fun k => if k = userId then some pr else st k,
   [Event.presenceChanged ("workspace:" ++ workspaceId) userId status])

/-- `setUserOffline` (presence.handler.js, lines 57-78): merge
`{ status: 'offline', lastSeen }` into the user's document (an absent
document is created carrying only those fields; the unmodelled remainder is
defaulted) and emit `presence:changed` with status `offline` to
`workspace:{id}` — again unconditionally. -/
def setUserOffline (st : PresenceStore) (userId workspaceId : String) (now : Nat) :
    PresenceStore × List Event :=
  let pr : PresenceRecord :=
    match st userId with
    | some r => { r with status := "offline", lastSeen := now }
    | none => { userId := userId, workspaceId := "", status := "offline",
                lastSeen := now, currentChannelId := none }
  (fun k => if k = userId then some pr else st k,
   [Event.presenceChanged ("workspace:" ++ workspaceId) userId "offline"])

/-! ## Typing-indicator cleanup (src/websocket/handlers/typing.handler.js) -/

/-- JS `List Char` prefix test, building block of `String.includes`. -/
def listStartsWith : List Char → List Char → Bool
  | _, [] => true
  | [], _ :: _ => false
  | c :: cs, p :: ps => c == p && listStartsWith cs ps

/-- Substring occurrence test on character lists. -/
def hasSub : List Char → List Char → Bool
  | [], pat => pat.isEmpty
  | l@(_ :: rest), pat => listStartsWith l pat || hasSub rest pat

/-- JS `s.includes(sub)`. -/
def jsIncludes (s sub : String) : Bool :=
  hasSub s.data sub.data

/-- The timeout-map key `` `${channelId}:${userId}` `` used by
`handleTypingStart` / `handleTypingStop`. -/
def typingKey (channelId userId : String) : String :=
  channelId ++ ":" ++ userId

/-- State of the typing-indicator layer: the Firestore `typing` collection
(per-channel list of entries) and the keys of the pending `typingTimeouts`
auto-stop timers. -/
structure TypingState where
  store : String → Option (List TypingEntry)
  timeouts : List String

/-- `clearUserTyping` (typing.handler.js, lines 215-230): iterate the timeout
map and cancel (clear and delete) every timer whose key contains the user id
as a substring.  The stored Firestore entries are left untouched — the
code's own comment defers that cleanup ("the typing indicators will
naturally expire"). -/
def clearUserTyping (ts : TypingState) (userId : String) : TypingState :=
  { ts with timeouts := ts.timeouts.filter (fun k => !(jsIncludes k userId)) }

/-! ## Disconnect handler (src/websocket/index.js, `initializeSocketServer`) -/

/-- One cleanup step the disconnect handler may perform.  `huddleLeave` is
the step §4.7 of the specification demands; it is part of the observation
vocabulary so that its absence can be stated. -/
inductive Cleanup where
  | presenceOffline (userId workspaceId : String)
  | typingClear (userId : String)
  | leaveRoom (room : String)
  | huddleLeave (huddleId userId : String)
deriving DecidableEq, Repr

/-- The connection-scoped fields the disconnect handler can read: the
authenticated user id, the workspace joined via `workspace:join` (if any)
and the current huddle (if any — never consulted by the handler). -/
structure Conn where
  userId : String
  workspaceId : Option String
  currentHuddleId : Option String
deriving DecidableEq, Repr

/-- The `socket.on('disconnect', ...)` handler (websocket/index.js, lines
92-105): `setUserOffline` only when a workspace was joined, then
`clearUserTyping`, then `leaveWorkspace` (which leaves only the
`workspace:{id}` room, again only when one was joined). -/
def onDisconnect (c : Conn) : List Cleanup :=
  (match c.workspaceId with
   | some w => [Cleanup.presenceOffline c.userId w]
   | none => []) ++
  [Cleanup.typingClear c.userId] ++
  (match c.workspaceId with
   | some w => [Cleanup.leaveRoom ("workspace:" ++ w)]
   | none => [])

/-! ## Concrete fixtures used by counterexamples and witnesses -/

/-- An active audio huddle on channel `c1` with its creator as the sole
participant, exactly as `createHuddle` would build it. -/
def huddleA : Huddle :=
  { id := "h1", channelId := "c1", workspaceId := "w1", creatorId := "u1",
    type := MediaType.audio, status := HuddleStatus.active,
    participants := [{ userId := "u1", joinedAt := 0, isMuted := false,
                       isVideoOff := true, isScreenSharing := false }],
    createdAt := 0, endedAt := none }

/-- Service state holding `huddleA` in memory and in Firestore. -/
def hstA : HuddleState :=
  { activeHuddles := [("h1", huddleA)], fsHuddles := [("h1", huddleA)] }

/-- An active huddle on channel `c2` held only by the Firestore collection
(the in-memory map is empty, as after a process restart). -/
def huddleB : Huddle :=
  { id := "h2", channelId := "c2", workspaceId := "w1", creatorId := "u1",
    type := MediaType.audio, status := HuddleStatus.active,
    participants := [{ userId := "u1", joinedAt := 0, isMuted := false,
                       isVideoOff := true, isScreenSharing := false }],
    createdAt := 0, endedAt := none }

/-- Service state holding `huddleB` only in Firestore. -/
def hstB : HuddleState :=
  { activeHuddles := [], fsHuddles := [("h2", huddleB)] }

/-- An ended huddle, stored in memory and in Firestore. -/
def huddleC : Huddle :=
  { id := "h3", channelId := "c3", workspaceId := "w1", creatorId := "u1",
    type := MediaType.audio, status := HuddleStatus.ended,
    participants := [], createdAt := 0, endedAt := some 1 }

/-- Service state holding the ended `huddleC`. -/
def hstC : HuddleState :=
  { activeHuddles := [("h3", huddleC)], fsHuddles := [("h3", huddleC)] }

/-- The empty huddle-service state. -/
def hstE : HuddleState := { activeHuddles := [], fsHuddles := [] }

/-- A stored message authored by `author` carrying one reaction. -/
def msgA : Message :=
  { id := "m1", channelId := "c1", userId := "author", content := "hi",
    reactions := [{ emoji := "+1", userIds := ["u1"], count := 1 }],
    isEdited := false, isDeleted := false, updatedAt := 0 }

/-- Message store holding only `msgA`. -/
def storeA : MsgStore := fun k => if k = "m1" then some msgA else none

/-- A stored message with no reactions yet. -/
def msgB : Message :=
  { id := "m2", channelId := "c1", userId := "author", content := "yo",
    reactions := [], isEdited := false, isDeleted := false, updatedAt := 0 }

/-- Message store holding only `msgB`. -/
def storeB : MsgStore := fun k => if k = "m2" then some msgB else none

/-- Presence store where `u1` is already online in `w1`. -/
def presA : PresenceStore :=
  fun k =>
    if k = "u1" then
      some { userId := "u1", workspaceId := "w1", status := "online",
             lastSeen := 0, currentChannelId := none }
    else none

/-- Typing state with one stored entry for `u1` in channel `c1` and the
matching pending auto-stop timer. -/
def tsA : TypingState :=
  { store := fun k =>
      if k = "c1" then some [{ userId := "u1", userName := "Alice", timestamp := 0 }]
      else none,
    timeouts := ["c1:u1"] }

/-! ## Map lemmas -/

theorem mget_mset_self {α : Type} (m : List (String × α)) (k : String) (v : α) :
    mget (mset m k v) k = some v := by
  induction m with
  | nil => simp [mset, mget]
  | cons p rest ih =>
    obtain ⟨k', v'⟩ := p
    by_cases h : k' = k
    · simp [mset, h, mget]
    · simp [mset, h, mget, ih]

theorem mget_mdel_self {α : Type} (m : List (String × α)) (k : String) :
    mget (mdel m k) k = none := by
  induction m with
  | nil => simp [mdel, mget]
  | cons p rest ih =>
    obtain ⟨k', v'⟩ := p
    by_cases h : k' = k
    · simpa [mdel, h] using ih
    · simpa [mdel, h, mget] using ih

theorem msSet_self (st : MsgStore) (k : String) (m : Message) :
    msSet st k m k = some m := by
  simp [msSet]

/-! ## Claim theorems -/

/-- Claim C2, counterexample: a connection that joined workspace `w1` and is
currently in huddle `h1` disconnects; the handler performs presence-offline,
typing-clear and a leave of the workspace room only — the huddle-leave step
the claim requires is absent. -/
theorem C2_counterexample :
    onDisconnect { userId := "u1", workspaceId := some "w1", currentHuddleId := some "h1" } =
      [Cleanup.presenceOffline "u1" "w1", Cleanup.typingClear "u1",
       Cleanup.leaveRoom "workspace:w1"]
    ∧ ((onDisconnect { userId := "u1", workspaceId := some "w1",
                       currentHuddleId := some "h1" }).contains
        (Cleanup.huddleLeave "h1" "u1")) = false := by
  constructor
  · rfl
  · decide

/-- Claim C2, amended: on disconnect the handler runs presence-offline, then
typing-clear, then a leave of the workspace room — the first and last only
when the connection had joined a workspace — and performs no huddle-leave
and no explicit leave of any other room, whatever huddle the connection is
in. -/
theorem C2_theorem (u w : String) (hid : Option String) :
    onDisconnect { userId := u, workspaceId := some w, currentHuddleId := hid } =
      [Cleanup.presenceOffline u w, Cleanup.typingClear u,
       Cleanup.leaveRoom ("workspace:" ++ w)]
    ∧ onDisconnect { userId := u, workspaceId := none, currentHuddleId := hid } =
      [Cleanup.typingClear u] := by
  constructor <;> rfl

/-- Claim C3, counterexample: user `u1` is stored as `online`; a presence
update carrying the same status `online` still emits a `presence:changed`
broadcast, although the stored status value did not change. -/
theorem C3_counterexample :
    (presA "u1").map PresenceRecord.status = some "online"
    ∧ ((handlePresenceUpdate presA "u1" "w1" (some "online") none 5).1 "u1").map
        PresenceRecord.status = some "online"
    ∧ (handlePresenceUpdate presA "u1" "w1" (some "online") none 5).2 ≠ [] := by
  refine ⟨rfl, rfl, ?_⟩
  decide

/-- Claim C3, amended: every presence update emits exactly one
`presence:changed` broadcast to the workspace room carrying the newly stored
status (defaulting to `online`), with no comparison against the previous
status; `setUserOffline` likewise always broadcasts `offline`. -/
theorem C3_theorem (st : PresenceStore) (u w : String) (s? c? : Option String) (now : Nat) :
    (handlePresenceUpdate st u w s? c? now).2 =
      [Event.presenceChanged ("workspace:" ++ w) u (s?.getD "online")]
    ∧ (setUserOffline st u w now).2 =
      [Event.presenceChanged ("workspace:" ++ w) u "offline"] := by
  constructor <;> rfl

/-- Claim C5: an edit or delete attempt on a stored message by a user other
than its author fails with 403 (Forbidden), leaves the store untouched and
emits no broadcast. -/
theorem C5_theorem (st : MsgStore) (mid content uid : String) (now : Nat) (m : Message)
    (hm : st mid = some m) (hne : m.userId ≠ uid) :
    updateMessage st mid content uid now =
      (st, [], Except.error { statusCode := 403,
                              message := "You can only edit your own messages" })
    ∧ deleteMessage st mid uid now =
      (st, [], Except.error { statusCode := 403,
                              message := "You can only delete your own messages" }) := by
  have hbeq : (m.userId == uid) = false := by
    simp [hne]
  constructor
  · simp [updateMessage, hm, hbeq]
  · simp [deleteMessage, hm, hbeq]

/-- Claim C5, witness: the intruder's edit and delete of `msgA` both fail
with 403 and change nothing. -/
theorem C5_witness :
    updateMessage storeA "m1" "haha" "intruder" 9 =
      (storeA, [], Except.error { statusCode := 403,
                                  message := "You can only edit your own messages" })
    ∧ deleteMessage storeA "m1" "intruder" 9 =
      (storeA, [], Except.error { statusCode := 403,
                                  message := "You can only delete your own messages" }) :=
  C5_theorem storeA "m1" "haha" "intruder" 9 msgA rfl (by decide)

/-- Claim C10: a `leaveHuddle` naming a huddle id absent from both the
in-memory map and the Firestore collection returns silently — state
untouched, no broadcast, no error — whereas `joinHuddle` on the same id
fails with 404 (NotFound). -/
theorem C10_theorem (st : HuddleState) (hid uid : String) (now : Nat)
    (hmem : mget st.activeHuddles hid = none)
    (hfs : mget st.fsHuddles hid = none) :
    leaveHuddle st hid uid now = (st, [], none)
    ∧ joinHuddle st hid uid now =
      (st, [], Except.error { statusCode := 404, message := "Huddle not found" }) := by
  constructor
  · simp [leaveHuddle, hmem, hfs]
  · simp [joinHuddle, hmem, hfs]

/-- Claim C10, witness: leaving an unknown huddle on the empty state is a
silent no-op while joining it is a 404. -/
theorem C10_witness :
    leaveHuddle hstE "nope" "u1" 0 = (hstE, [], none)
    ∧ joinHuddle hstE "nope" "u1" 0 =
      (hstE, [], Except.error { statusCode := 404, message := "Huddle not found" }) :=
  C10_theorem hstE "nope" "u1" 0 rfl rfl

/-- Claim C1, counterexample: channel `c1` already holds the active
`huddleA`; the create endpoint rejects the request with HTTP status 400 —
not 409 (Conflict) — while leaving the stored huddle collection unchanged. -/
theorem C1_counterexample :
    (createHuddleEndpoint hstA "c1" "w1" "u2" MediaType.audio "h9" 2).2.2 =
      { status := 400, ok := false }
    ∧ (400 : Nat) ≠ 409
    ∧ (createHuddleEndpoint hstA "c1" "w1" "u2" MediaType.audio "h9" 2).1.fsHuddles =
      hstA.fsHuddles := by
  refine ⟨rfl, by decide, rfl⟩

/-- Claim C1, amended: when the channel already holds an active huddle (in
memory or in the store), the create endpoint responds with HTTP 400 (not 409
Conflict), emits no broadcast, and leaves the huddle collection unchanged,
so no second session is created and the channel's active-huddle count is
preserved. -/
theorem C1_theorem (st : HuddleState) (channelId workspaceId userId : String)
    (type : MediaType) (freshId : String) (now : Nat)
    (hhas : (st.activeHuddles.find? (fun p => isActiveFor channelId p.2)).isSome = true
          ∨ (st.fsHuddles.find? (fun p => isActiveFor channelId p.2)).isSome = true) :
    (createHuddleEndpoint st channelId workspaceId userId type freshId now).2.2 =
      { status := 400, ok := false }
    ∧ (createHuddleEndpoint st channelId workspaceId userId type freshId now).1.fsHuddles =
      st.fsHuddles
    ∧ (createHuddleEndpoint st channelId workspaceId userId type freshId now).2.1 = []
    ∧ countActive
        (createHuddleEndpoint st channelId workspaceId userId type freshId now).1.fsHuddles
        channelId = countActive st.fsHuddles channelId := by
  by_cases hreq : channelId = "" ∨ workspaceId = ""
  · simp [createHuddleEndpoint, hreq]
  · cases hmem : st.activeHuddles.find? (fun p => isActiveFor channelId p.2) with
    | some kv => simp [createHuddleEndpoint, hreq, getChannelHuddle, hmem]
    | none =>
      cases hfs : st.fsHuddles.find? (fun p => isActiveFor channelId p.2) with
      | some kv => simp [createHuddleEndpoint, hreq, getChannelHuddle, hmem, hfs]
      | none =>
        rcases hhas with h | h
        · rw [hmem] at h; cases h
        · rw [hfs] at h; cases h

/-- Claim C1, witness: the rejection at state `hstA` really evaluates to the
400 response with an unchanged store. -/
theorem C1_witness :
    (createHuddleEndpoint hstA "c1" "w1" "u2" MediaType.audio "h8" 2).2.2 =
      { status := 400, ok := false } :=
  (C1_theorem hstA "c1" "w1" "u2" MediaType.audio "h8" 2 (Or.inl (by decide))).1

/-- Claim C6, counterexample: huddle `h3` exists but is ended; `joinHuddle`
rejects with status 400 ("Huddle is no longer active"), not the 404
(NotFound) the claim requires, adding no participant. -/
theorem C6_counterexample :
    (joinHuddle hstC "h3" "u9" 7).2.2 =
      Except.error { statusCode := 400, message := "Huddle is no longer active" }
    ∧ (400 : Nat) ≠ 404
    ∧ (joinHuddle hstC "h3" "u9" 7).1 = hstC := by
  refine ⟨rfl, by decide, rfl⟩

/-- Claim C6, amended: `joinHuddle` fails with 404 (NotFound) only when the
huddle id names no session in either store; a session that exists but is not
active is rejected with 400 ("Huddle is no longer active").  In every
failure case no participant is added and no broadcast is emitted (a session
found only in the external store is cached in memory unchanged). -/
theorem C6_theorem (st : HuddleState) (hid uid : String) (now : Nat) :
    (mget st.activeHuddles hid = none → mget st.fsHuddles hid = none →
      joinHuddle st hid uid now =
        (st, [], Except.error { statusCode := 404, message := "Huddle not found" }))
    ∧ (∀ h : Huddle, mget st.activeHuddles hid = some h → h.status ≠ HuddleStatus.active →
        joinHuddle st hid uid now =
          (st, [], Except.error { statusCode := 400, message := "Huddle is no longer active" }))
    ∧ (∀ h : Huddle, mget st.activeHuddles hid = none → mget st.fsHuddles hid = some h →
        h.status ≠ HuddleStatus.active →
        joinHuddle st hid uid now =
          ({ st with activeHuddles := mset st.activeHuddles hid h }, [],
           Except.error { statusCode := 400, message := "Huddle is no longer active" })) := by
  refine ⟨?_, ?_, ?_⟩
  · intro hmem hfs
    simp [joinHuddle, hmem, hfs]
  · intro h hmem hstat
    have hbeq : (h.status == HuddleStatus.active) = false := by
      simp [hstat]
    simp [joinHuddle, hmem, hbeq]
  · intro h hmem hfs hstat
    have hbeq : (h.status == HuddleStatus.active) = false := by
      simp [hstat]
    simp [joinHuddle, hmem, hfs, hbeq]

/-- Claim C6, witness: both rejection branches evaluate as the theorem
states — 404 on the empty state, 400 on the ended `huddleC`. -/
theorem C6_witness :
    joinHuddle hstE "h3" "u9" 7 =
      (hstE, [], Except.error { statusCode := 404, message := "Huddle not found" })
    ∧ joinHuddle hstC "h3" "u9" 7 =
      (hstC, [], Except.error { statusCode := 400, message := "Huddle is no longer active" }) :=
  ⟨(C6_theorem hstE "h3" "u9" 7).1 rfl rfl,
   (C6_theorem hstC "h3" "u9" 7).2.1 huddleC rfl (by decide)⟩

/-- Claim C7: joining an active huddle as an existing participant is a
no-op — the state, the stored huddle and the returned huddle are unchanged,
no broadcast is emitted and no error is raised; moreover any successful join
on that huddle preserves at-most-one-participant-per-user-id. -/
theorem C7_theorem (st : HuddleState) (hid uid : String) (now : Nat) (h : Huddle)
    (hmem : mget st.activeHuddles hid = some h)
    (hact : h.status = HuddleStatus.active)
    (hpart : (h.participants.find? (fun p => p.userId == uid)).isSome = true) :
    joinHuddle st hid uid now = (st, [], Except.ok h)
    ∧ ∀ (uid2 : String) (st2 : HuddleState) (evs : List Event) (h2 : Huddle),
        joinHuddle st hid uid2 now = (st2, evs, Except.ok h2) →
        (h.participants.map Participant.userId).Nodup →
        (h2.participants.map Participant.userId).Nodup := by
  have hbeq : (h.status == HuddleStatus.active) = true := by
    simp [hact]
  constructor
  · simp [joinHuddle, hmem, hbeq, hpart]
  · intro uid2 st2 evs h2 heq hnd
    cases hfind : h.participants.find? (fun p => p.userId == uid2) with
    | some q =>
      simp [joinHuddle, hmem, hbeq, hfind, Prod.ext_iff] at heq
      obtain ⟨-, -, h3⟩ := heq
      rw [← h3]
      exact hnd
    | none =>
      have hnotin : uid2 ∉ h.participants.map Participant.userId := by
        intro hin
        obtain ⟨p, hp, hpu⟩ := List.mem_map.mp hin
        have := List.find?_eq_none.mp hfind p hp
        simp [hpu] at this
      simp [joinHuddle, hmem, hbeq, hfind, Prod.ext_iff] at heq
      obtain ⟨-, -, h3⟩ := heq
      rw [← h3]
      simp only [List.map_append, List.map_cons, List.map_nil]
      rw [List.nodup_append]
      refine ⟨hnd, List.nodup_singleton _, ?_⟩
      intro a ha hb
      simp at hb
      subst hb
      exact hnotin ha

/-- Claim C7, witness: the creator rejoining `huddleA` gets the very same
huddle back with no state change, no broadcast and no error. -/
theorem C7_witness :
    joinHuddle hstA "h1" "u1" 4 = (hstA, [], Except.ok huddleA) :=
  (C7_theorem hstA "h1" "u1" 4 huddleA rfl rfl (by decide)).1

/-- Claim C4, counterexample: the active `huddleB` lives only in the
Firestore collection (as after a process restart); when its last participant
leaves, the session is ended in the store but `huddle:ended` is broadcast
only to the huddle room — the channel room the claim requires receives
nothing, because `endHuddle` reads the channel id from the in-memory map,
which has no entry. -/
theorem C4_counterexample :
    huddleB.status = HuddleStatus.active
    ∧ (leaveHuddle hstB "h2" "u1" 5).2.1 = [Event.huddleEnded "huddle:h2" "h2"]
    ∧ ((leaveHuddle hstB "h2" "u1" 5).2.1.contains
        (Event.huddleEnded "channel:c2" "h2")) = false
    ∧ (mget (leaveHuddle hstB "h2" "u1" 5).1.fsHuddles "h2").map Huddle.status =
      some HuddleStatus.ended := by
  refine ⟨rfl, rfl, by decide, rfl⟩

/-- Claim C4, amended: for a leave on an active session present in the
in-memory map, the named participant is removed; if no participant remains
the session transitions to ended and `huddle:ended` goes to the channel room
and the huddle room, otherwise `huddle:participant-left` goes to the huddle
room and the session stays active.  (When the session is held only by the
external store, the ended broadcast reaches only the huddle room, as the
counterexample shows.) -/
theorem C4_theorem (st : HuddleState) (hid uid : String) (now : Nat) (h : Huddle)
    (hmem : mget st.activeHuddles hid = some h)
    (_hact : h.status = HuddleStatus.active) :
    (if (h.participants.filter (fun p => !(p.userId == uid))).isEmpty then
        mget (leaveHuddle st hid uid now).1.activeHuddles hid = none
        ∧ (leaveHuddle st hid uid now).2.1 =
            [Event.huddleEnded ("channel:" ++ h.channelId) hid,
             Event.huddleEnded ("huddle:" ++ hid) hid]
        ∧ (leaveHuddle st hid uid now).2.2 =
            some { h with participants := h.participants.filter (fun p => !(p.userId == uid)),
                          status := HuddleStatus.ended, endedAt := some now }
      else
        mget (leaveHuddle st hid uid now).1.activeHuddles hid =
            some { h with participants := h.participants.filter (fun p => !(p.userId == uid)) }
        ∧ (leaveHuddle st hid uid now).2.1 =
            [Event.huddleParticipantLeft ("huddle:" ++ hid) hid uid]
        ∧ (leaveHuddle st hid uid now).2.2 =
            some { h with participants := h.participants.filter (fun p => !(p.userId == uid)) })
    ∧ (mget (leaveHuddle st hid uid now).1.activeHuddles hid).all
        (fun h2 => h2.participants.all (fun p => !(p.userId == uid))) = true := by
  by_cases hemp : (h.participants.filter (fun p => !(p.userId == uid))).isEmpty = true
  · have hrun : leaveHuddle st hid uid now =
        endHuddle { st with activeHuddles := mset st.activeHuddles hid ({ h with participants := h.participants.filter (fun p => !(p.userId == uid)) }) }
          hid now := by
      simp [leaveHuddle, hmem, hemp]
    rw [if_pos hemp]
    have hmem2 : mget (mset st.activeHuddles hid
        ({ h with participants := h.participants.filter (fun p => !(p.userId == uid)) })) hid =
        some { h with participants := h.participants.filter (fun p => !(p.userId == uid)) } :=
      mget_mset_self _ _ _
    refine ⟨⟨?_, ?_, ?_⟩, ?_⟩
    · rw [hrun]
      simp only [endHuddle]
      exact mget_mdel_self _ _
    · rw [hrun]
      simp [endHuddle, hmem2]
    · rw [hrun]
      simp [endHuddle, hmem2]
    · rw [hrun]
      simp only [endHuddle]
      rw [mget_mdel_self]
      rfl
  · rw [if_neg hemp]
    have hrun : leaveHuddle st hid uid now =
        ({ st with
             activeHuddles := mset st.activeHuddles hid ({ h with participants := h.participants.filter (fun p => !(p.userId == uid)) }),
             fsHuddles := fsUpdateParticipants st.fsHuddles hid (h.participants.filter (fun p => !(p.userId == uid))) },
         [Event.huddleParticipantLeft ("huddle:" ++ hid) hid uid],
         some { h with participants := h.participants.filter (fun p => !(p.userId == uid)) }) := by
      simp [leaveHuddle, hmem, hemp]
    refine ⟨⟨?_, ?_, ?_⟩, ?_⟩
    · rw [hrun]
      exact mget_mset_self _ _ _
    · rw [hrun]
    · rw [hrun]
    · rw [hrun]
      simp only []
      rw [mget_mset_self]
      simp only [Option.all_some]
      rw [List.all_eq_true]
      intro p hp
      exact (List.mem_filter.mp hp).2

/-- Claim C4, witness: the sole participant leaving `huddleA` (held in
memory) ends the session and broadcasts `huddle:ended` to the channel room
and the huddle room. -/
theorem C4_witness :
    mget (leaveHuddle hstA "h1" "u1" 3).1.activeHuddles "h1" = none
    ∧ (leaveHuddle hstA "h1" "u1" 3).2.1 =
      [Event.huddleEnded "channel:c1" "h1", Event.huddleEnded "huddle:h1" "h1"] := by
  have hh := C4_theorem hstA "h1" "u1" 3 huddleA rfl rfl
  rw [if_pos (by decide)] at hh
  exact ⟨hh.1.1, hh.1.2.1⟩

/-! ## Substring lemmas for the typing cleanup -/

theorem listStartsWith_append_self (p t : List Char) :
    listStartsWith (p ++ t) p = true := by
  induction p with
  | nil => cases t <;> simp [listStartsWith]
  | cons c cs ih => simp [listStartsWith, ih]

theorem hasSub_append_self (pre p : List Char) :
    hasSub (pre ++ p) p = true := by
  induction pre with
  | nil =>
    cases p with
    | nil => simp [hasSub]
    | cons c cs =>
      simp only [List.nil_append, hasSub]
      have := listStartsWith_append_self (c :: cs) []
      simp at this
      simp [this]
  | cons x pre ih =>
    simp [hasSub, ih]

theorem jsIncludes_typingKey (c u : String) :
    jsIncludes (typingKey c u) u = true := by
  have hdata : (typingKey c u).data = (c.data ++ [':']) ++ u.data := by
    cases c with
    | mk cd =>
      cases u with
      | mk ud => simp [typingKey, String.instAppend, String.append]
  rw [jsIncludes, hdata]
  exact hasSub_append_self _ _

/-- Claim C8, counterexample: user `u1` disconnects while a `TypingEntry`
for them is stored under channel `c1`; `clearUserTyping` cancels the pending
timer but the stored entry survives, so the claimed removal across channels
does not happen. -/
theorem C8_counterexample :
    (clearUserTyping tsA "u1").store "c1" =
      some [{ userId := "u1", userName := "Alice", timestamp := 0 }]
    ∧ (clearUserTyping tsA "u1").timeouts = [] := by
  constructor
  · rfl
  · decide

/-- Claim C8, amended: `clearUserTyping` cancels every pending auto-stop
timer whose key contains the user id — in particular all of the user's own
`channel:user` keys, leaving no dangling timer of theirs — but removes no
stored TypingEntry: the `typing` collection is returned untouched. -/
theorem C8_theorem (ts : TypingState) (u : String) :
    (clearUserTyping ts u).store = ts.store
    ∧ ∀ c : String,
        ((clearUserTyping ts u).timeouts.contains (typingKey c u)) = false := by
  constructor
  · rfl
  · intro c
    have hnot : typingKey c u ∉ (clearUserTyping ts u).timeouts := by
      intro hmem
      have hpred := (List.mem_filter.mp hmem).2
      rw [jsIncludes_typingKey] at hpred
      simp at hpred
    simpa using hnot

/-! ## Reaction round-trip lemmas -/

theorem removeFirst_append_self (u : String) (l : List String) (hmem : u ∉ l) :
    removeFirst (l ++ [u]) u = l := by
  induction l with
  | nil => simp [removeFirst]
  | cons x xs ih =>
    have hxu : ¬ (x = u) := fun hh => hmem (by simp [hh])
    simp only [List.cons_append, removeFirst, if_neg hxu, List.append_eq]
    rw [ih (fun hh => hmem (by simp [hh]))]

theorem applyAddReaction_roundtrip (e u : String) :
    ∀ (rs rs' : List Reaction), wfReactions rs →
      applyAddReaction rs e u = Except.ok rs' →
      applyRemoveReaction rs' e u = Except.ok rs := by
  intro rs
  induction rs with
  | nil =>
    intro rs' _ hadd
    simp only [applyAddReaction, Except.ok.injEq] at hadd
    subst hadd
    simp [applyRemoveReaction, removeFirst]
  | cons r rest ih =>
    intro rs' hwf hadd
    have hwfr := hwf r (by simp)
    have hwfrest : wfReactions rest := fun x hx => hwf x (by simp [hx])
    by_cases he : r.emoji = e
    · rw [applyAddReaction, if_pos he] at hadd
      by_cases hu : u ∈ r.userIds
      · rw [if_pos hu] at hadd
        cases hadd
      · rw [if_neg hu] at hadd
        injection hadd with hadd
        subst hadd
        rw [applyRemoveReaction, if_pos he]
        rw [if_pos (by simp : u ∈ r.userIds ++ [u])]
        have hids : removeFirst (r.userIds ++ [u]) u = r.userIds :=
          removeFirst_append_self u r.userIds hu
        have hcnt : r.count + 1 - 1 = r.count := by ring
        have hne0 : ¬ (r.count = 0) := by
          rw [hwfr.1]
          have hlen : r.userIds.length ≠ 0 := by
            intro hl
            exact hwfr.2 (List.length_eq_zero.mp hl)
          exact_mod_cast hlen
        rw [hids, hcnt, if_neg hne0]
    · rw [applyAddReaction, if_neg he] at hadd
      cases hrec : applyAddReaction rest e u with
      | error err => rw [hrec] at hadd; cases hadd
      | ok rest' =>
        rw [hrec] at hadd
        injection hadd with hadd
        subst hadd
        rw [applyRemoveReaction, if_neg he, ih rest' hwfrest hrec]

/-- Claim C9, counterexample: user `u1` has already reacted `+1` on `msgA`;
performing `AddReaction` (which fails with 409 and changes nothing) followed
by `RemoveReaction` with the same triple leaves the message with no
reactions — not the pre-add state, which held the `+1` by `u1`. -/
theorem C9_counterexample :
    (addReaction storeA "m1" "+1" "u1").2.2 =
      Except.error { statusCode := 409, message := "You already reacted with this emoji" }
    ∧ ((removeReaction (addReaction storeA "m1" "+1" "u1").1 "m1" "+1" "u1").1 "m1").map
        Message.reactions = some []
    ∧ msgA.reactions ≠ [] := by
  refine ⟨rfl, rfl, by decide⟩

/-- Claim C9, amended: on a well-formed reaction state (counter equals the
number of reacting users, no empty entry), whenever `AddReaction` succeeds,
the following `RemoveReaction` with the same (messageId, userId, emoji)
succeeds and returns the stored message — its reaction state included — to
its exact pre-add value.  (When the add fails with 409 because the user had
already reacted, the remove deletes the pre-existing reaction, as the
counterexample shows.) -/
theorem C9_theorem (st : MsgStore) (mid e u : String) (m : Message) (rs' : List Reaction)
    (hm : st mid = some m) (hwf : wfReactions m.reactions)
    (hadd : applyAddReaction m.reactions e u = Except.ok rs') :
    ((removeReaction (addReaction st mid e u).1 mid e u).1) mid = some m
    ∧ (removeReaction (addReaction st mid e u).1 mid e u).2.2 = Except.ok m := by
  have h1 : (addReaction st mid e u).1 = msSet st mid { m with reactions := rs' } := by
    simp [addReaction, hm, hadd]
  have h2 : (addReaction st mid e u).1 mid = some { m with reactions := rs' } := by
    rw [h1]; exact msSet_self _ _ _
  have hrem : applyRemoveReaction rs' e u = Except.ok m.reactions :=
    applyAddReaction_roundtrip e u m.reactions rs' hwf hadd
  constructor
  · simp [removeReaction, h2, hrem, msSet]
  · simp [removeReaction, h2, hrem]

/-- Claim C9, witness: adding `+1` by `u2` to the reaction-free `msgB` and
removing it again restores the stored message exactly. -/
theorem C9_witness :
    ((removeReaction (addReaction storeB "m2" "+1" "u2").1 "m2" "+1" "u2").1) "m2" =
      some msgB
    ∧ (removeReaction (addReaction storeB "m2" "+1" "u2").1 "m2" "+1" "u2").2.2 =
      Except.ok msgB :=
  C9_theorem storeB "m2" "+1" "u2" msgB
    [{ emoji := "+1", userIds := ["u2"], count := 1 }] rfl
    (by intro r hr; simp [msgB] at hr) rfl

end Nextus
